import Mathlib

/-!
Verification of the college-list document generator (`aotomate.py`).

The development shallowly embeds the parsing, rendering and orchestration
logic of the source file.  Generation calls (OpenAI), the docx library and
the file system are external capabilities: generation results are inputs
(`Option String`, `none` modelling a failed/`None` result), documents are
lists of abstract items, and the file system is an existence predicate on
file names.

Python string methods are modelled as functions on the character list of a
`String` (Python strings are sequences of characters), so that every
definition evaluates inside the kernel.
-/

namespace CollegeGen

/-! ### Python string primitives -/

/-- Python `sub in s`: substring containment. -/
def containsSub (sub s : String) : Bool := decide (List.IsInfix sub.data s.data)

/-- Python `s.split('\n')`: split on every newline, keeping empty pieces. -/
def pyLines (s : String) : List String := (s.data.splitOn '\n').map String.mk

/-- Python `s.strip()`: remove leading and trailing whitespace. -/
def pyStrip (s : String) : String :=
  String.mk (((s.data.dropWhile Char.isWhitespace).reverse.dropWhile Char.isWhitespace).reverse)

/-- Python `sep.join(xs)`. -/
def pyJoin (sep : String) (xs : List String) : String :=
  String.mk (List.intercalate sep.data (xs.map String.data))

/-- Python `s.startswith(pre)`. -/
def pyStartsWith (s pre : String) : Bool := pre.data.isPrefixOf s.data

/-- Python `s.endswith(post)`. -/
def pyEndsWith (s post : String) : Bool := post.data.isSuffixOf s.data

/-- Python `s[n:]`. -/
def pyDrop (s : String) (n : Nat) : String := String.mk (s.data.drop n)

/-- Python `s.replace(str(c), '')`: remove every occurrence of the character. -/
def pyRemoveAll (s : String) (c : Char) : String :=
  String.mk (s.data.filter (fun ch => ch != c))

/-- Python `s.lower()`. -/
def pyLower (s : String) : String := String.mk (s.data.map Char.toLower)

/-- Python `s.upper()`. -/
def pyUpper (s : String) : String := String.mk (s.data.map Char.toUpper)

/-- Python `re.split(r'[,;\n]', s)`: split at every comma, semicolon or
newline, keeping empty pieces. -/
def pySplitSeps (s : String) : List String :=
  (s.data.splitOnP (fun c => c == ',' || c == ';' || c == '\n')).map String.mk

/-- Splitting on the two-character separator `ab`, leftmost-first and
non-overlapping: Python `s.split('\n\n')` with `a = b = '\n'`. -/
def splitPairAux (a b : Char) : List Char → List (List Char)
  | [] => [[]]
  | [x] => [[x]]
  | x :: y :: rest =>
    if x = a && y = b then [] :: splitPairAux a b rest
    else
      match splitPairAux a b (y :: rest) with
      | [] => [[x]]
      | h :: t => (x :: h) :: t

/-- Python `s.split('\n\n')`. -/
def pyParas (s : String) : List String := (splitPairAux '\n' '\n' s.data).map String.mk

/-! ### Student-info values and `extract_student_picked_colleges` -/

/-- A cell value of the student-info mapping (one CSV row turned into a dict).
`vNan` models a pandas missing value (NaN); `vList` models a Python list of
strings (as passed by `process_student` to `create_college_list_table`). -/
inductive Value where
  | vStr (s : String)
  | vNum (n : Int)
  | vNan
  | vList (l : List String)
deriving DecidableEq

/-- A student-info dict: association list with the keys in insertion order. -/
abbrev Profile : Type := List (String × Value)

/-- Dict lookup (`student_info[field]` / `field in student_info`). -/
def getField (p : Profile) (k : String) : Option Value :=
  (p.find? (fun kv => kv.1 == k)).map Prod.snd

/-- Truthiness of `pd.isna(v)`.  On a scalar `pd.isna` returns a bool; on a
list it returns a numpy array whose truthiness raises `ValueError` unless
the array has exactly one element (modelled as `Except.error`).  The lists
occurring here hold strings, which are never NaN. -/
def isnaE : Value → Except Unit Bool
  | .vStr _ => .ok false
  | .vNum _ => .ok false
  | .vNan => .ok true
  | .vList l => if l.length = 1 then .ok false else .error ()

/-- Whether a value is a Python string (`isinstance(colleges, str)`). -/
def isStrValue : Value → Bool
  | .vStr _ => true
  | _ => false

/-- The candidate field names probed by `extract_student_picked_colleges`. -/
def potentialFields : List String :=
  ["Student Picked Colleges", "Student Selected Colleges",
   "Preferred Colleges", "Colleges of Interest"]

/-- `[c.strip() for c in re.split(r'[,;\n]', colleges) if c.strip()]`. -/
def splitClean (s : String) : List String :=
  (pySplitSeps s).filterMap
    (fun c => if pyStrip c = "" then none else some (pyStrip c))

/-- First loop of `extract_student_picked_colleges`: direct key matches. -/
def pickLoopDirect (profile : Profile) : List String → Except Unit (Option (List String))
  | [] => .ok none
  | f :: fs =>
    match getField profile f with
    | none => pickLoopDirect profile fs
    | some v =>
      match isnaE v with
      | .error e => .error e
      | .ok b =>
        if b then pickLoopDirect profile fs
        else
          match v with
          | .vStr s => .ok (some (splitClean s))
          | _ => pickLoopDirect profile fs

/-- Second loop of `extract_student_picked_colleges`: case-insensitive
substring matches over all keys of the dict. -/
def pickLoopPartial (fields : List String) : List (String × Value) → Except Unit (Option (List String))
  | [] => .ok none
  | (k, v) :: rest =>
    if fields.any (fun f => containsSub (pyLower f) (pyLower k)) then
      match isnaE v with
      | .error e => .error e
      | .ok b =>
        if b then pickLoopPartial fields rest
        else
          match v with
          | .vStr s => .ok (some (splitClean s))
          | _ => pickLoopPartial fields rest
    else pickLoopPartial fields rest

/-- Body of `extract_student_picked_colleges` inside its `try`: the first
loop returning a list short-circuits; an exception propagates. -/
def extractPickedE (profile : Profile) : Except Unit (List String) :=
  match pickLoopDirect profile potentialFields with
  | .error e => .error e
  | .ok (some r) => .ok r
  | .ok none =>
    match pickLoopPartial potentialFields profile with
    | .error e => .error e
    | .ok (some r) => .ok r
    | .ok none => .ok []

/-- `extract_student_picked_colleges`: the surrounding `except` handler turns
any exception into an empty result. -/
def extract_student_picked_colleges (profile : Profile) : List String :=
  match extractPickedE profile with
  | .ok r => r
  | .error _ => []

/-! ### The college-list parser of `generate_reasons_for_selections` -/

/-- The three selectivity tiers. -/
inductive Cat where
  | reach
  | target
  | safety
deriving DecidableEq

/-- The three per-category school accumulators of
`generate_reasons_for_selections`. -/
structure ReasonsLists where
  reach : List String
  target : List String
  safety : List String
deriving DecidableEq

def addSchool (ls : ReasonsLists) : Cat → String → ReasonsLists
  | .reach, s => { ls with reach := ls.reach ++ [s] }
  | .target, s => { ls with target := ls.target ++ [s] }
  | .safety, s => { ls with safety := ls.safety ++ [s] }

/-- One iteration of the parsing loop in `generate_reasons_for_selections`
(lines 284-299): strip the line, switch category on a marker substring,
otherwise record `line[2:].strip()` for a bullet while a category is active. -/
def reasonsStep (st : Option Cat × ReasonsLists) (rawLine : String) :
    Option Cat × ReasonsLists :=
  let line := pyStrip rawLine
  if containsSub "Reach Schools" line then (some Cat.reach, st.2)
  else if containsSub "Target Schools" line then (some Cat.target, st.2)
  else if containsSub "Safety Schools" line then (some Cat.safety, st.2)
  else
    match st.1, pyStartsWith line "- " with
    | some c, true => (some c, addSchool st.2 c (pyStrip (pyDrop line 2)))
    | _, _ => st

/-- The complete parse of the generated college-list text performed by
`generate_reasons_for_selections` before building its prompt. -/
def parseReasonsLists (collegeList : String) : ReasonsLists :=
  ((pyLines collegeList).foldl reasonsStep (none, ⟨[], [], []⟩)).2

/-- Projection of the accumulated school lists by category. -/
def projCat (ls : ReasonsLists) : Cat → List String
  | .reach => ls.reach
  | .target => ls.target
  | .safety => ls.safety

/-- The category-marker classification of a (stripped) line, mirroring the
if/elif chain shared by the listing parsers: the first matching substring
wins. -/
def lineCat (line : String) : Option Cat :=
  if containsSub "Reach Schools" line then some Cat.reach
  else if containsSub "Target Schools" line then some Cat.target
  else if containsSub "Safety Schools" line then some Cat.safety
  else none

/-- A (stripped) line that is a bullet and not a category marker. -/
def isBulletLine (line : String) : Bool :=
  (lineCat line).isNone && pyStartsWith line "- "

/-- The most recently seen category marker of a line sequence, starting from
a previously active category. -/
def lastMarkerFrom (a : Option Cat) (ls : List String) : Option Cat :=
  ls.foldl (fun acc l =>
    match lineCat l with
    | some c => some c
    | none => acc) a

/-- Operational helper for relating the parser fold to `specSchools`:
the schools a walk of the (stripped) lines assigns to category `c`,
starting with active category `cur`. -/
def specFrom (cur : Option Cat) (c : Cat) : List String → List String
  | [] => []
  | l :: ls =>
    match lineCat l with
    | some c2 => specFrom (some c2) c ls
    | none =>
      if pyStartsWith l "- " then
        (if cur = some c then [pyStrip (pyDrop l 2)] else []) ++ specFrom cur c ls
      else specFrom cur c ls

/-- Modelled from the spec: the institutions that belong to category `c` —
every bullet line whose most recently seen preceding category marker is `c`
(so a bullet before any marker belongs to no category), in source order,
each recorded as the remainder after the bullet prefix, stripped. -/
def specSchools (cur : Option Cat) (c : Cat) (lines : List String) : List String :=
  lines.enum.filterMap (fun p =>
    if isBulletLine p.2 = true ∧ lastMarkerFrom cur (lines.take p.1) = some c
    then some (pyStrip (pyDrop p.2 2)) else none)

/-! ### The table parser/renderer of `create_college_list_table`
(the second, authoritative definition, lines 804-893) -/

/-- Truthiness of `current_category` (a string or `None`). -/
def curTruthy : Option String → Bool
  | none => false
  | some s => s != ""

/-- Loop state of the parse inside `create_college_list_table`:
`current_category`, the pending `schools` accumulator, and the table rows
added so far (each row is the pair of its two cell texts). -/
structure TableAcc where
  cur : Option String
  schools : List String
  rows : List (String × String)
deriving DecidableEq

/-- `if current_category and schools: row = table.add_row(); ...` —
the flush of the pending category into a table row, joining the recorded
school lines with newlines. -/
def tableFlush (st : TableAcc) : List (String × String) :=
  if curTruthy st.cur && !st.schools.isEmpty then
    st.rows ++ [(st.cur.getD "", pyJoin "\n" st.schools)]
  else st.rows

/-- One iteration of the parsing loop in `create_college_list_table`
(lines 841-874).  Note that a bullet line is appended whole
(`schools.append(line)`), including its leading `"- "`. -/
def tableStep (st : TableAcc) (rawLine : String) : TableAcc :=
  let line := pyStrip rawLine
  if line = "" then st
  else if containsSub "Reach Schools" line then ⟨some "Reach Schools", [], tableFlush st⟩
  else if containsSub "Target Schools" line then ⟨some "Target Schools", [], tableFlush st⟩
  else if containsSub "Safety Schools" line then ⟨some "Safety Schools", [], tableFlush st⟩
  else if pyStartsWith line "- " && curTruthy st.cur then
    { st with schools := st.schools ++ [line] }
  else st

/-- The picked colleges rendered into the listing table, obtained via
`extract_student_picked_colleges` when a student-info dict was supplied. -/
def picksOf (studentInfo : Option Profile) : List String :=
  match studentInfo with
  | none => []
  | some p => extract_student_picked_colleges p

/-- The optional "Student Picked Colleges" row. -/
def pickedRows (picks : List String) : List (String × String) :=
  if picks.isEmpty then []
  else [("Student Picked Colleges", pyJoin "\n" (picks.map (fun c => "- " ++ c)))]

/-- The rows of the COLLEGE LIST SUMMARY table built by
`create_college_list_table`: header row, one row per flushed category, and
the optional "Student Picked Colleges" row. -/
def create_college_list_table_rows (content : String) (studentInfo : Option Profile) :
    List (String × String) :=
  let st := (pyLines content).foldl tableStep ⟨none, [], []⟩
  (("School Level", "List of College") :: tableFlush st) ++ pickedRows (picksOf studentInfo)

/-- Modelled from the spec: the category-to-institutions mapping used to
render the listing table — the (category label, recorded school lines)
pairs flushed by the parse, before the cells are newline-joined. -/
structure MapAcc where
  cur : Option String
  schools : List String
  rendered : List (String × List String)

def mapFlush (st : MapAcc) : List (String × List String) :=
  if curTruthy st.cur && !st.schools.isEmpty then
    st.rendered ++ [(st.cur.getD "", st.schools)]
  else st.rendered

def mapStep (st : MapAcc) (rawLine : String) : MapAcc :=
  let line := pyStrip rawLine
  if line = "" then st
  else if containsSub "Reach Schools" line then ⟨some "Reach Schools", [], mapFlush st⟩
  else if containsSub "Target Schools" line then ⟨some "Target Schools", [], mapFlush st⟩
  else if containsSub "Safety Schools" line then ⟨some "Safety Schools", [], mapFlush st⟩
  else if pyStartsWith line "- " && curTruthy st.cur then
    { st with schools := st.schools ++ [line] }
  else st

/-- The category-to-institutions mapping rendered into the listing table. -/
def listingMapping (content : String) : List (String × List String) :=
  mapFlush ((pyLines content).foldl mapStep ⟨none, [], []⟩)

/-- Scanning a produced table: read each row's category cell and split the
schools cell on newlines. -/
def scanTable (rows : List (String × String)) : List (String × List String) :=
  rows.map (fun r => (r.1, pyLines r.2))

/-! ### The rationale parser/renderer of `create_reasons_section` -/

/-- Loop state of the parse inside `create_reasons_section`: the current
section marker and the three accumulated content strings. -/
structure RationaleAcc where
  cur : Option Cat
  reach : String
  target : String
  safety : String
deriving DecidableEq

/-- One iteration of the parsing loop in `create_reasons_section`
(lines 627-639).  The line is kept verbatim (`line + "\n"`); only the
emptiness test uses `line.strip()`. -/
def rationaleStep (st : RationaleAcc) (line : String) : RationaleAcc :=
  if containsSub "**REACH SCHOOLS**" line then { st with cur := some Cat.reach }
  else if containsSub "**TARGET SCHOOLS**" line then { st with cur := some Cat.target }
  else if containsSub "**SAFETY SCHOOLS**" line then { st with cur := some Cat.safety }
  else
    match st.cur with
    | some Cat.reach => if pyStrip line != "" then { st with reach := st.reach ++ line ++ "\n" } else st
    | some Cat.target => if pyStrip line != "" then { st with target := st.target ++ line ++ "\n" } else st
    | some Cat.safety => if pyStrip line != "" then { st with safety := st.safety ++ line ++ "\n" } else st
    | none => st

/-- The rows of the REASONS FOR SELECTIONS table: a header row plus one row
per fixed category, the cell text being the accumulated content stripped. -/
def create_reasons_rows (content : String) : List (String × String) :=
  let st := (pyLines content).foldl rationaleStep ⟨none, "", "", ""⟩
  [("School Category", "Reasons for Selection"),
   ("Reach Schools", pyStrip st.reach),
   ("Target Schools", pyStrip st.target),
   ("Safety Schools", pyStrip st.safety)]

/-! ### The institution-details parser of `create_detailed_college_info` -/

/-- `line.startswith('**') and line.endswith('**')`. -/
def isHeaderLine (line : String) : Bool := pyStartsWith line "**" && pyEndsWith line "**"

/-- Loop state of the per-category parse in `create_detailed_college_info`:
`current_college`, the accumulated `college_details`, and the finished
(name, details) pairs. -/
structure DetAcc where
  cur : Option String
  details : String
  colleges : List (String × String)
deriving DecidableEq

/-- One iteration of the parsing loop (lines 713-724).  On a header line the
pending college is flushed only if both the name and the accumulated details
are truthy; `college_details` is reset only in that case. -/
def detStep (st : DetAcc) (line : String) : DetAcc :=
  if isHeaderLine line then
    if curTruthy st.cur && st.details != "" then
      ⟨some (pyStrip (pyRemoveAll line '*')), "", st.colleges ++ [(st.cur.getD "", st.details)]⟩
    else
      ⟨some (pyStrip (pyRemoveAll line '*')), st.details, st.colleges⟩
  else { st with details := st.details ++ line ++ "\n" }

/-- The flush of the pending college after the loop
(`if current_college and college_details: colleges.append(...)`). -/
def finalizeDet (st : DetAcc) : List (String × String) :=
  if curTruthy st.cur && st.details != "" then
    st.colleges ++ [(st.cur.getD "", st.details)]
  else st.colleges

/-- The (name, detail block) pairs extracted from one category's generated
details text, including the final flush after the loop. -/
def parseColleges (content : String) : List (String × String) :=
  finalizeDet ((pyLines content).foldl detStep ⟨none, "", []⟩)

/-- The accumulated detail block of a list of detail lines, as built by
`college_details += line + "\n"`. -/
def joinLN : List String → String
  | [] => ""
  | d :: ds => d ++ "\n" ++ joinLN ds

/-- The lines of one well-formed details block: a bold-marker header line
followed by the block's detail lines. -/
def blockLines (b : String × List String) : List String :=
  ("**" ++ b.1 ++ "**") :: b.2

/-- A college name that the header cleanup recovers exactly: non-empty, its
wrapped form is recognized as a header line, and removing asterisks and
stripping gives the name back. -/
abbrev nameOk (n : String) : Prop :=
  n ≠ "" ∧ isHeaderLine ("**" ++ n ++ "**") = true ∧
    pyStrip (pyRemoveAll ("**" ++ n ++ "**") '*') = n

/-- `categories.get(k, 99)` with `categories = {"Reach": 0, "Target": 1, "Safety": 2}`. -/
def catRank (k : String) : Nat :=
  if k = "Reach" then 0 else if k = "Target" then 1 else if k = "Safety" then 2 else 99

/-- Stable insertion into a rank-sorted list (for the stable Python
`sorted(..., key=lambda k: categories.get(k, 99))`). -/
def insertByRank (x : String × String) : List (String × String) → List (String × String)
  | [] => [x]
  | y :: ys => if catRank y.1 < catRank x.1 then y :: insertByRank x ys else x :: y :: ys

/-- Stable sort of the category/content pairs by category rank. -/
def sortByRank (l : List (String × String)) : List (String × String) :=
  l.foldr insertByRank []

/-! ### Documents, file system, and the per-record pipeline -/

/-- An abstract item of the accumulating document body. -/
inductive DocItem where
  | secHeading (t : String)
  | paragraph (t : String)
  | bullet (t : String)
  | tableRows (rows : List (String × String))
  | docHeading (t : String)
  | pageBreak
deriving DecidableEq

/-- Whether a document item is a table. -/
def isTableItem : DocItem → Bool
  | .tableRows _ => true
  | _ => false

/-- `create_overview_section`: a section heading followed by the non-empty
double-newline-separated paragraphs, each stripped. -/
def create_overview_section (doc : List DocItem) (content : String) : List DocItem :=
  (doc ++ [DocItem.secHeading "OVERVIEW"]) ++
    (pyParas content).filterMap (fun par =>
      if pyStrip par = "" then none else some (DocItem.paragraph (pyStrip par)))

/-- `create_student_criteria_section`: heading plus one item per non-empty
line; a leading hyphen becomes a bullet glyph with the rest stripped. -/
def create_student_criteria_section (doc : List DocItem) (content : String) : List DocItem :=
  (doc ++ [DocItem.secHeading "STUDENT COLLEGE CRITERIA"]) ++
    (pyLines content).filterMap (fun l =>
      let line := pyStrip l
      if line = "" then none
      else if pyStartsWith line "-" then some (DocItem.bullet ("• " ++ pyStrip (pyDrop line 1)))
      else some (DocItem.paragraph line))

/-- `create_college_list_table` as a document mutation. -/
def create_college_list_table_doc (doc : List DocItem) (content : String)
    (si : Option Profile) : List DocItem :=
  doc ++ [DocItem.secHeading "COLLEGE LIST SUMMARY",
          DocItem.tableRows (create_college_list_table_rows content si)]

/-- `create_reasons_section` as a document mutation. -/
def create_reasons_section_doc (doc : List DocItem) (content : String) : List DocItem :=
  doc ++ [DocItem.secHeading "REASONS FOR SELECTIONS",
          DocItem.tableRows (create_reasons_rows content)]

/-- The per-category detail table: header row plus one row per college, the
details cell stripped. -/
def renderDetailTable (colleges : List (String × String)) : List (String × String) :=
  ("College Name", "Details") :: colleges.map (fun e => (e.1, pyStrip e.2))

/-- `create_detailed_college_info`: section heading, then for each category
in rank order an upper-cased heading, a page break before every category but
the first, and a table only when at least one college was parsed. -/
def create_detailed_college_info_doc (doc : List DocItem)
    (byCat : List (String × String)) : List DocItem :=
  let ordered := sortByRank byCat
  let start := doc ++ [DocItem.secHeading "COLLEGE DETAILED INFORMATION"]
  (ordered.foldl (fun (acc : List DocItem × Bool) p =>
      let d0 := if acc.2 then acc.1 ++ [DocItem.pageBreak] else acc.1
      let d1 := d0 ++ [DocItem.docHeading (pyUpper p.1 ++ " SCHOOLS")]
      let cs := parseColleges p.2
      let d2 := if cs.isEmpty then d1 else d1 ++ [DocItem.tableRows (renderDetailTable cs)]
      (d2, true)) (start, false)).1

/-- Result of `create_new_document`: the file system after deleting any
pre-existing output file, whether the header got the logo, the fresh empty
body, and the derived file name. -/
structure NewDoc where
  fs : String → Bool
  hasLogo : Bool
  body : List DocItem
  fileName : String

/-- `f"{first}_{last}_College_Recommendations.docx"`. -/
def outputFileName (first last : String) : String :=
  first ++ "_" ++ last ++ "_College_Recommendations.docx"

/-- `create_new_document`: delete an existing file of the derived name, then
check for the logo (against the file system after the deletion) and return
a fresh empty document. -/
def create_new_document (fs : String → Bool) (first last logoPath : String) : NewDoc :=
  let name := outputFileName first last
  let fs1 : String → Bool := fun n => if n = name then false else fs n
  { fs := fs1, hasLogo := fs1 logoPath, body := [], fileName := name }

/-- The generation steps invoked by `process_student`, in order. -/
inductive GenStep where
  | overview
  | criteria
  | listing
  | reasons
  | detail (c : Cat)
deriving DecidableEq

/-- The results of the external generation capability for one record:
`none` models an API call that failed (the `generate_*` helper returned
`None`). -/
structure GenResults where
  overview : Option String
  criteria : Option String
  listing : Option String
  reasons : Option String
  detReach : Option String
  detTarget : Option String
  detSafety : Option String

def detFor (gen : GenResults) : Cat → Option String
  | .reach => gen.detReach
  | .target => gen.detTarget
  | .safety => gen.detSafety

def catName : Cat → String
  | .reach => "Reach"
  | .target => "Target"
  | .safety => "Safety"

/-- Intermediate state of `process_student`: the in-memory document body,
the number of `doc.save` attempts made, the generation calls issued, and
whether an uncaught exception has jumped to the outer handler. -/
structure PState where
  doc : List DocItem
  saves : Nat
  calls : List GenStep
  aborted : Bool
deriving DecidableEq

/-- One `doc.save(output_file)` checkpoint: attempt number `st.saves` either
succeeds or raises, in which case control transfers to the outer `except`
(modelled by the `aborted` flag, which freezes all later operations). -/
def doSave (saveOk : Nat → Bool) (st : PState) : PState :=
  if st.aborted then st
  else if saveOk st.saves then { st with saves := st.saves + 1 }
  else { st with saves := st.saves + 1, aborted := true }

/-- Issue one generation call (recorded in the call log). -/
def runGen (st : PState) (g : GenStep) : PState :=
  if st.aborted then st else { st with calls := st.calls ++ [g] }

/-- `if content: render; doc.save(...)` — a section is rendered and
checkpointed only when the generation result is truthy (non-`None` and
non-empty). -/
def renderIf (saveOk : Nat → Bool) (st : PState) (res : Option String)
    (render : String → List DocItem → List DocItem) : PState :=
  if st.aborted then st
  else
    match res with
    | some content =>
      if content = "" then st
      else doSave saveOk { st with doc := render content st.doc }
    | none => st

/-- Outcome of `process_student` for one record. -/
structure PSResult where
  success : Bool
  doc : List DocItem
  calls : List GenStep
deriving DecidableEq

def firstNameKey : String := "Student\x27s Name - First Name"
def lastNameKey : String := "Student\x27s Name - Last Name"

/-- Python `str()` as used by the f-string building the file name. -/
def strOf : Value → String
  | .vStr s => s
  | .vNum n => toString n
  | .vNan => "nan"
  | .vList _ => "[...]"

/-- `process_student` (lines 897-971): abandon the record on missing name
fields; otherwise create the document and run the section pipeline, where
the Listing step gates Rationale and Details, each rendered section is
followed by a checkpoint save, and any raised exception (here: a failed
save) aborts the record via the outer handler, which returns `False`. -/
def process_student (profile : Profile) (gen : GenResults) (saveOk : Nat → Bool)
    (fs : String → Bool) (logoPath : String) : PSResult :=
  let firstV := (getField profile firstNameKey).getD (Value.vStr "")
  let lastV := (getField profile lastNameKey).getD (Value.vStr "")
  match isnaE firstV with
  | .error _ => ⟨false, [], []⟩
  | .ok fna =>
    if fna then ⟨false, [], []⟩
    else
      match isnaE lastV with
      | .error _ => ⟨false, [], []⟩
      | .ok lna =>
        if lna then ⟨false, [], []⟩
        else
          let nd := create_new_document fs (strOf firstV) (strOf lastV) logoPath
          let st0 : PState := ⟨nd.body, 0, [], false⟩
          let st1 := renderIf saveOk (runGen st0 .overview) gen.overview
            (fun c d => create_overview_section d c)
          let st2 := renderIf saveOk (runGen st1 .criteria) gen.criteria
            (fun c d => create_student_criteria_section d c)
          let st3 := runGen st2 .listing
          let st9 :=
            match gen.listing with
            | none => st3
            | some collegeList =>
              if collegeList = "" then st3
              else
                let picks := extract_student_picked_colleges profile
                let st4 := renderIf saveOk st3 (some collegeList)
                  (fun c d => create_college_list_table_doc d c
                    (some [("Student Picked Colleges", Value.vList picks)]))
                let st5 := renderIf saveOk (runGen st4 .reasons) gen.reasons
                  (fun c d => create_reasons_section_doc d c)
                let st6 := runGen st5 (.detail .reach)
                let st7 := runGen st6 (.detail .target)
                let st8 := runGen st7 (.detail .safety)
                let byCat := [Cat.reach, Cat.target, Cat.safety].filterMap
                  (fun c => match detFor gen c with
                    | some t => if t = "" then none else some (catName c, t)
                    | none => none)
                if st8.aborted then st8
                else if byCat.isEmpty then st8
                else doSave saveOk { st8 with doc := create_detailed_college_info_doc st8.doc byCat }
          let stF := doSave saveOk st9
          ⟨!stF.aborted, stF.doc, stF.calls⟩

/-! ## Theorems -/

/-- A generic helper: a `filterMap` whose outputs all satisfy `p` yields a
list all of whose members satisfy `p`. -/
theorem all_filterMap_of {α : Type} (f : α → Option DocItem) (p : DocItem → Bool)
    (l : List α) (h : ∀ a b, f a = some b → p b = true) :
    ((l.filterMap f).all p) = true := by
  induction l with
  | nil => rfl
  | cons a as ih =>
    rw [List.filterMap_cons]
    cases hfa : f a with
    | none => exact ih
    | some b => simp [List.all_cons, h a b hfa, ih]

/-- C9: for every record, `create_new_document` derives the output file name
`first_last_College_Recommendations.docx`, deletes any pre-existing file of
exactly that name from the file system, leaves every other file untouched,
and returns a fresh empty document body. -/
theorem create_new_document_frame (fs : String → Bool) (first last logoPath : String) :
    (create_new_document fs first last logoPath).fileName =
      first ++ "_" ++ last ++ "_College_Recommendations.docx" ∧
    (create_new_document fs first last logoPath).fs
      ((create_new_document fs first last logoPath).fileName) = false ∧
    (∀ n, n ≠ (create_new_document fs first last logoPath).fileName →
      (create_new_document fs first last logoPath).fs n = fs n) ∧
    (create_new_document fs first last logoPath).body = [] := by
  refine ⟨rfl, ?_, ?_, rfl⟩
  · simp [create_new_document]
  · intro n hn
    simp only [create_new_document, outputFileName] at hn ⊢
    simp [hn]

/-- Witness for C9 at a concrete file system and record. -/
theorem create_new_document_frame_witness :
    (create_new_document (fun _ => true) "Jane" "Doe" "logo.png").fs
      "Jane_Doe_College_Recommendations.docx" = false ∧
    (create_new_document (fun _ => true) "Jane" "Doe" "logo.png").fs "notes.txt" = true := by
  have h := create_new_document_frame (fun _ => true) "Jane" "Doe" "logo.png"
  exact ⟨h.2.1, h.2.2.1 "notes.txt" (by rw [h.1]; decide)⟩

/-- If no line mentions the TARGET marker, the rationale fold never activates
the target section and accumulates no target content. -/
theorem rationale_target_empty (lines : List String) :
    ∀ st : RationaleAcc, (∀ l ∈ lines, containsSub "**TARGET SCHOOLS**" l = false) →
      st.cur ≠ some Cat.target → st.target = "" →
      (lines.foldl rationaleStep st).cur ≠ some Cat.target ∧
        (lines.foldl rationaleStep st).target = "" := by
  induction lines with
  | nil => exact fun st _ hc ht => ⟨hc, ht⟩
  | cons l ls ih =>
    intro st h hc ht
    have hl : containsSub "**TARGET SCHOOLS**" l = false := h l (List.mem_cons_self _ _)
    have hstep : (rationaleStep st l).cur ≠ some Cat.target ∧
        (rationaleStep st l).target = "" := by
      cases hcur : st.cur with
      | none =>
        simp only [rationaleStep, hl, Bool.false_eq_true, if_false, hcur]
        split_ifs <;> simp_all
      | some c =>
        cases c with
        | reach =>
          simp only [rationaleStep, hl, Bool.false_eq_true, if_false, hcur]
          split_ifs <;> simp_all
        | target => exact absurd hcur hc
        | safety =>
          simp only [rationaleStep, hl, Bool.false_eq_true, if_false, hcur]
          split_ifs <;> simp_all
    simp only [List.foldl_cons]
    exact ih _ (fun x hx => h x (List.mem_cons_of_mem _ hx)) hstep.1 hstep.2

/-- If no line mentions the SAFETY marker, the rationale fold never activates
the safety section and accumulates no safety content. -/
theorem rationale_safety_empty (lines : List String) :
    ∀ st : RationaleAcc, (∀ l ∈ lines, containsSub "**SAFETY SCHOOLS**" l = false) →
      st.cur ≠ some Cat.safety → st.safety = "" →
      (lines.foldl rationaleStep st).cur ≠ some Cat.safety ∧
        (lines.foldl rationaleStep st).safety = "" := by
  induction lines with
  | nil => exact fun st _ hc ht => ⟨hc, ht⟩
  | cons l ls ih =>
    intro st h hc ht
    have hl : containsSub "**SAFETY SCHOOLS**" l = false := h l (List.mem_cons_self _ _)
    have hstep : (rationaleStep st l).cur ≠ some Cat.safety ∧
        (rationaleStep st l).safety = "" := by
      cases hcur : st.cur with
      | none =>
        simp only [rationaleStep, hl, Bool.false_eq_true, if_false, hcur]
        split_ifs <;> simp_all
      | some c =>
        cases c with
        | reach =>
          simp only [rationaleStep, hl, Bool.false_eq_true, if_false, hcur]
          split_ifs <;> simp_all
        | target =>
          simp only [rationaleStep, hl, Bool.false_eq_true, if_false, hcur]
          split_ifs <;> simp_all
        | safety => exact absurd hcur hc
    simp only [List.foldl_cons]
    exact ih _ (fun x hx => h x (List.mem_cons_of_mem _ hx)) hstep.1 hstep.2

/-- C5: for every rationale text, `create_reasons_section` builds a
two-column table of exactly 4 rows — the header plus the three fixed
categories in the order Reach, Target, Safety — and a category whose marker
never occurs (hence has no parsed content) gets an empty cell rather than an
omitted row or an error. -/
theorem reasons_table_shape (content : String)
    (htgt : ∀ l ∈ pyLines content, containsSub "**TARGET SCHOOLS**" l = false)
    (hsaf : ∀ l ∈ pyLines content, containsSub "**SAFETY SCHOOLS**" l = false) :
    (create_reasons_rows content).length = 4 ∧
    (create_reasons_rows content).map Prod.fst =
      ["School Category", "Reach Schools", "Target Schools", "Safety Schools"] ∧
    (create_reasons_rows content).getD 2 ("", "") = ("Target Schools", "") ∧
    (create_reasons_rows content).getD 3 ("", "") = ("Safety Schools", "") := by
  have ht := rationale_target_empty (pyLines content) ⟨none, "", "", ""⟩ htgt
    (by simp) rfl
  have hs := rationale_safety_empty (pyLines content) ⟨none, "", "", ""⟩ hsaf
    (by simp) rfl
  refine ⟨rfl, rfl, ?_, ?_⟩
  · simp only [create_reasons_rows, ht.2]
    rfl
  · simp only [create_reasons_rows, hs.2]
    rfl

/-- Witness for C5: a rationale text containing only the Reach marker. -/
theorem reasons_table_shape_witness :
    (create_reasons_rows "**REACH SCHOOLS**\nOnly reach.").length = 4 ∧
    (create_reasons_rows "**REACH SCHOOLS**\nOnly reach.").getD 2 ("", "") =
      ("Target Schools", "") := by
  have h := reasons_table_shape "**REACH SCHOOLS**\nOnly reach." (by decide) (by decide)
  exact ⟨h.1, h.2.2.1⟩

/-- Joining a single string is the identity. -/
theorem pyJoin_singleton (sep s : String) : pyJoin sep [s] = s := by
  simp [pyJoin, List.intercalate, List.intersperse]

/-- C4 counterexample: for the listing text `"Reach Schools\n- Stanford
University"`, the cell stored in the listing table is the whole bullet line
`"- Stanford University"`, not the remainder after the bullet prefix — the
stored cell text does include the leading `"- "`. -/
theorem table_cell_keeps_bullet :
    create_college_list_table_rows "Reach Schools\n- Stanford University" none =
      [("School Level", "List of College"), ("Reach Schools", "- Stanford University")] ∧
    ("- Stanford University" : String) ≠
      pyStrip (pyDrop (pyStrip "- Stanford University") 2) := by decide

/-- C4 (amended): for a line starting with the two-character bullet prefix
while a category is active, the parser in `generate_reasons_for_selections`
records the remainder after the prefix, trimmed; but
`create_college_list_table` appends the whole trimmed bullet line — the
listing-table cell keeps the leading `"- "`. -/
theorem bullet_line_recording (text line : String)
    (hsplit : pyLines text = ["Reach Schools", line])
    (h1 : containsSub "Reach Schools" (pyStrip line) = false)
    (h2 : containsSub "Target Schools" (pyStrip line) = false)
    (h3 : containsSub "Safety Schools" (pyStrip line) = false)
    (hb : pyStartsWith (pyStrip line) "- " = true)
    (hne : pyStrip line ≠ "") :
    (parseReasonsLists text).reach = [pyStrip (pyDrop (pyStrip line) 2)] ∧
    create_college_list_table_rows text none =
      [("School Level", "List of College"), ("Reach Schools", pyStrip line)] := by
  constructor
  · simp only [parseReasonsLists, hsplit, List.foldl_cons, List.foldl_nil]
    have e1 : reasonsStep (none, ⟨[], [], []⟩) "Reach Schools" =
        (some Cat.reach, ⟨[], [], []⟩) := by decide
    rw [e1]
    simp [reasonsStep, h1, h2, h3, hb, addSchool]
  · simp only [create_college_list_table_rows, hsplit, List.foldl_cons, List.foldl_nil]
    have e2 : tableStep ⟨none, [], []⟩ "Reach Schools" = ⟨some "Reach Schools", [], []⟩ := by
      decide
    rw [e2]
    have hcurT : curTruthy (some "Reach Schools") = true := by decide
    simp [tableStep, h1, h2, h3, hb, hne, hcurT, tableFlush, picksOf, pickedRows,
      pyJoin_singleton]

/-- Witness for C4 (amended) at the concrete counterexample input. -/
theorem bullet_line_recording_witness :
    (parseReasonsLists "Reach Schools\n- Stanford University").reach = ["Stanford University"] ∧
    create_college_list_table_rows "Reach Schools\n- Stanford University" none =
      [("School Level", "List of College"), ("Reach Schools", "- Stanford University")] := by
  have h := bullet_line_recording "Reach Schools\n- Stanford University" "- Stanford University"
    (by decide) (by decide) (by decide) (by decide) (by decide) (by decide)
  exact ⟨by rw [h.1]; decide, by rw [h.2]; decide⟩

/-- A successful dict lookup comes from an entry of the profile. -/
theorem getField_mem (p : Profile) (k : String) (v : Value)
    (h : getField p k = some v) : ∃ kv, kv ∈ p ∧ kv.1 = k ∧ kv.2 = v := by
  unfold getField at h
  cases hf : p.find? (fun kv => kv.1 == k) with
  | none => rw [hf] at h; cases h
  | some kv =>
    rw [hf] at h
    simp at h
    have hpk := List.find?_some hf
    exact ⟨kv, List.mem_of_find?_eq_some hf, eq_of_beq hpk, h⟩

/-- The direct-match loop finds nothing when every probed field is absent or
holds a missing value. -/
theorem pickLoopDirect_skip (p : Profile) (fields : List String)
    (h : ∀ f ∈ fields, ∀ v, getField p f = some v → v = Value.vNan) :
    pickLoopDirect p fields = .ok none := by
  induction fields with
  | nil => rfl
  | cons f fs ih =>
    have hrest : ∀ f2 ∈ fs, ∀ v, getField p f2 = some v → v = Value.vNan :=
      fun f2 hf2 => h f2 (List.mem_cons_of_mem _ hf2)
    cases hg : getField p f with
    | none =>
      simp only [pickLoopDirect, hg]
      exact ih hrest
    | some v =>
      have hv := h f (List.mem_cons_self _ _) v hg
      subst hv
      simp only [pickLoopDirect, hg, isnaE, if_true]
      exact ih hrest

/-- The partial-match loop finds nothing when every key either matches no
candidate (case-insensitively) or holds a missing value. -/
theorem pickLoopPartial_skip (fields : List String) (l : List (String × Value))
    (h : ∀ kv ∈ l,
      (∀ f ∈ fields, containsSub (pyLower f) (pyLower kv.1) = false) ∨
      kv.2 = Value.vNan) :
    pickLoopPartial fields l = .ok none := by
  induction l with
  | nil => rfl
  | cons kv rest ih =>
    obtain ⟨k, v⟩ := kv
    have hrest := fun kv2 hkv2 => h kv2 (List.mem_cons_of_mem _ hkv2)
    rcases h (k, v) (List.mem_cons_self _ _) with hno | hnan
    · have hany : (fields.any (fun f => containsSub (pyLower f) (pyLower k))) = false := by
        rw [List.any_eq_false]
        intro f hf
        simp [hno f hf]
      simp only [pickLoopPartial, hany, Bool.false_eq_true, if_false]
      exact ih hrest
    · simp only at hnan
      subst hnan
      by_cases hany : (fields.any (fun f => containsSub (pyLower f) (pyLower k))) = true
      · simp only [pickLoopPartial, hany, if_true, isnaE]
        exact ih hrest
      · have hany2 : (fields.any (fun f => containsSub (pyLower f) (pyLower k))) = false := by
          revert hany
          cases fields.any (fun f => containsSub (pyLower f) (pyLower k)) <;> simp
        simp only [pickLoopPartial, hany2, Bool.false_eq_true, if_false]
        exact ih hrest

/-- C7: `extract_student_picked_colleges` splits the matched field value
`"Stanford; MIT, Yale"` on comma/semicolon/newline into exactly
`["Stanford", "MIT", "Yale"]` in order (pieces trimmed, empties dropped);
and for every profile with no matching field or only missing values, it
returns the empty sequence. -/
theorem extract_picked_behavior :
    extract_student_picked_colleges
        [("Student Picked Colleges", Value.vStr "Stanford; MIT, Yale")] =
      ["Stanford", "MIT", "Yale"] ∧
    ∀ profile : Profile,
      (∀ kv ∈ profile,
        (kv.1 ∉ potentialFields ∧
          ∀ f ∈ potentialFields, containsSub (pyLower f) (pyLower kv.1) = false) ∨
        kv.2 = Value.vNan) →
      extract_student_picked_colleges profile = [] := by
  constructor
  · decide
  · intro profile h
    have hd : pickLoopDirect profile potentialFields = .ok none := by
      apply pickLoopDirect_skip
      intro f hf v hg
      obtain ⟨kv, hmem, hk, hv⟩ := getField_mem profile f v hg
      rcases h kv hmem with ⟨hnot, _⟩ | hnan
      · exact absurd (by rw [hk]; exact hf) hnot
      · rw [← hv]; exact hnan
    have hp : pickLoopPartial potentialFields profile = .ok none := by
      apply pickLoopPartial_skip
      intro kv hkv
      rcases h kv hkv with ⟨_, hnosub⟩ | hnan
      · exact Or.inl hnosub
      · exact Or.inr hnan
    simp [extract_student_picked_colleges, extractPickedE, hd, hp]

/-- Witness for C7's universally quantified part: a profile whose only field
matches no candidate name. -/
theorem extract_picked_behavior_witness :
    extract_student_picked_colleges [("Quiz Answer", Value.vStr "hello")] = [] :=
  extract_picked_behavior.2 [("Quiz Answer", Value.vStr "hello")] (by decide)

/-- C10 counterexample: a profile in which the candidate field "Student
Picked Colleges" is present with a non-string (numeric) value, yet
`extract_student_picked_colleges` returns a non-empty sequence (found in a
later candidate field) — the claim's universally quantified "returns the
empty sequence" is false. -/
theorem nonstring_candidate_counterexample :
    extract_student_picked_colleges
        [("Student Picked Colleges", Value.vNum 5),
         ("Preferred Colleges", Value.vStr "Harvard University")] =
      ["Harvard University"] ∧
    (["Harvard University"] : List String) ≠ [] := by decide

/-- The direct-match loop either raises or finds nothing when every probed
entry of the profile holds a non-string value. -/
theorem pickLoopDirect_nostring (p : Profile) (fields : List String)
    (hsub : ∀ f ∈ fields, f ∈ potentialFields)
    (h : ∀ kv ∈ p, kv.1 ∈ potentialFields → isStrValue kv.2 = false) :
    pickLoopDirect p fields = .error () ∨ pickLoopDirect p fields = .ok none := by
  induction fields with
  | nil => exact Or.inr rfl
  | cons f fs ih =>
    have ihr := ih (fun f2 hf2 => hsub f2 (List.mem_cons_of_mem _ hf2))
    cases hg : getField p f with
    | none => simpa [pickLoopDirect, hg] using ihr
    | some v =>
      obtain ⟨kv, hmem, hk, hv⟩ := getField_mem p f v hg
      have hns : isStrValue v = false := by
        rw [← hv]
        exact h kv hmem (by rw [hk]; exact hsub f (List.mem_cons_self _ _))
      cases v with
      | vStr s => simp [isStrValue] at hns
      | vNum n => simpa [pickLoopDirect, hg, isnaE] using ihr
      | vNan => simpa [pickLoopDirect, hg, isnaE] using ihr
      | vList l =>
        by_cases hl : l.length = 1
        · simpa [pickLoopDirect, hg, isnaE, hl] using ihr
        · left
          simp [pickLoopDirect, hg, isnaE, hl]

/-- The partial-match loop either raises or finds nothing when every
candidate-matching entry holds a non-string value. -/
theorem pickLoopPartial_nostring (fields : List String) (l : List (String × Value))
    (hsub : ∀ f ∈ fields, f ∈ potentialFields)
    (h : ∀ kv ∈ l,
      (∃ f ∈ potentialFields, containsSub (pyLower f) (pyLower kv.1) = true) →
      isStrValue kv.2 = false) :
    pickLoopPartial fields l = .error () ∨ pickLoopPartial fields l = .ok none := by
  induction l with
  | nil => exact Or.inr rfl
  | cons kv rest ih =>
    obtain ⟨k, v⟩ := kv
    have ihr := ih (fun kv2 h2 => h kv2 (List.mem_cons_of_mem _ h2))
    by_cases hany : (fields.any (fun f => containsSub (pyLower f) (pyLower k))) = true
    · have hex : ∃ f ∈ potentialFields, containsSub (pyLower f) (pyLower k) = true := by
        rw [List.any_eq_true] at hany
        obtain ⟨f, hf, hc⟩ := hany
        exact ⟨f, hsub f hf, hc⟩
      have hns := h (k, v) (List.mem_cons_self _ _) hex
      cases v with
      | vStr s => simp [isStrValue] at hns
      | vNum n => simpa [pickLoopPartial, hany, isnaE] using ihr
      | vNan => simpa [pickLoopPartial, hany, isnaE] using ihr
      | vList ll =>
        by_cases hl : ll.length = 1
        · simpa [pickLoopPartial, hany, isnaE, hl] using ihr
        · left
          simp [pickLoopPartial, hany, isnaE, hl]
    · have hany2 : (fields.any (fun f => containsSub (pyLower f) (pyLower k))) = false := by
        revert hany
        cases fields.any (fun f => containsSub (pyLower f) (pyLower k)) <;> simp
      simpa [pickLoopPartial, hany2] using ihr

/-- C10 (amended): for every profile in which every candidate-matching field
(exact candidate name, or case-insensitive substring match of a candidate
name in the key) holds a non-string value, `extract_student_picked_colleges`
returns the empty sequence and never raises — any internal exception (e.g.
`not pd.isna(...)` raising on a multi-element list) is caught by the handler
and converted to the same empty result — so non-string values never
contribute a "Student Picked Colleges" table row. -/
theorem nonstring_candidates_empty (profile : Profile)
    (h : ∀ kv ∈ profile,
      (kv.1 ∈ potentialFields ∨
        ∃ f ∈ potentialFields, containsSub (pyLower f) (pyLower kv.1) = true) →
      isStrValue kv.2 = false) :
    extract_student_picked_colleges profile = [] := by
  have hd := pickLoopDirect_nostring profile potentialFields (fun f hf => hf)
    (fun kv hkv hm => h kv hkv (Or.inl hm))
  have hp := pickLoopPartial_nostring potentialFields profile (fun f hf => hf)
    (fun kv hkv hex => h kv hkv (Or.inr hex))
  rcases hd with hd | hd
  · simp [extract_student_picked_colleges, extractPickedE, hd]
  · rcases hp with hp | hp
    · simp [extract_student_picked_colleges, extractPickedE, hd, hp]
    · simp [extract_student_picked_colleges, extractPickedE, hd, hp]

/-- Witness for C10 (amended): a multi-element list value (whose `pd.isna`
truthiness raises) and a numeric value in candidate fields. -/
theorem nonstring_candidates_empty_witness :
    extract_student_picked_colleges
        [("Student Picked Colleges", Value.vList ["A", "B"]),
         ("Colleges of Interest", Value.vNum 3)] = [] :=
  nonstring_candidates_empty _ (by decide)

/-- Rendering the overview section adds no table. -/
theorem overview_section_no_tables (doc : List DocItem) (content : String)
    (h : doc.all (fun it => !isTableItem it) = true) :
    (create_overview_section doc content).all (fun it => !isTableItem it) = true := by
  unfold create_overview_section
  rw [List.all_append, Bool.and_eq_true]
  refine ⟨?_, ?_⟩
  · rw [List.all_append, Bool.and_eq_true]
    exact ⟨h, by decide⟩
  · apply all_filterMap_of
    intro a b hab
    by_cases hpa : pyStrip a = ""
    · simp [hpa] at hab
    · simp only [hpa, if_false] at hab
      cases hab
      rfl

/-- Rendering the criteria section adds no table. -/
theorem criteria_section_no_tables (doc : List DocItem) (content : String)
    (h : doc.all (fun it => !isTableItem it) = true) :
    (create_student_criteria_section doc content).all (fun it => !isTableItem it) = true := by
  unfold create_student_criteria_section
  rw [List.all_append, Bool.and_eq_true]
  refine ⟨?_, ?_⟩
  · rw [List.all_append, Bool.and_eq_true]
    exact ⟨h, by decide⟩
  · apply all_filterMap_of
    intro a b hab
    simp only at hab
    by_cases hpa : pyStrip a = ""
    · simp [hpa] at hab
    · simp only [hpa, if_false] at hab
      by_cases hdash : pyStartsWith (pyStrip a) "-" = true
      · simp only [hdash, if_true] at hab
        cases hab
        rfl
      · simp only [eq_false_of_ne_true hdash, Bool.false_eq_true, if_false] at hab
        cases hab
        rfl

/-- C1: for every record with valid name fields whose Overview and Criteria
generations succeed, if the Listing generation returns a failed (`None`)
result then the Rationale and Details generation calls are never issued, the
produced document holds exactly the Overview and Criteria sections (and in
particular zero tables), and `process_student` still reports success —
document existence, not full content, determines success. -/
theorem listing_gates_sections (profile : Profile) (gen : GenResults)
    (saveOk : Nat → Bool) (fs : String → Bool) (logoPath : String)
    (fv lv o c : String)
    (hf : getField profile firstNameKey = some (Value.vStr fv))
    (hl : getField profile lastNameKey = some (Value.vStr lv))
    (ho : gen.overview = some o) (hone : o ≠ "")
    (hc : gen.criteria = some c) (hcne : c ≠ "")
    (hlist : gen.listing = none)
    (hsave : ∀ k, saveOk k = true) :
    (process_student profile gen saveOk fs logoPath).success = true ∧
    (process_student profile gen saveOk fs logoPath).doc =
      create_student_criteria_section (create_overview_section [] o) c ∧
    (process_student profile gen saveOk fs logoPath).calls =
      [GenStep.overview, GenStep.criteria, GenStep.listing] ∧
    ((process_student profile gen saveOk fs logoPath).doc.all
      (fun it => !isTableItem it)) = true := by
  have hmain : process_student profile gen saveOk fs logoPath =
      ⟨true, create_student_criteria_section (create_overview_section [] o) c,
       [GenStep.overview, GenStep.criteria, GenStep.listing]⟩ := by
    simp [process_student, hf, hl, ho, hone, hc, hcne, hlist, isnaE, strOf,
      create_new_document, runGen, renderIf, doSave, hsave]
  refine ⟨by rw [hmain], by rw [hmain], by rw [hmain], ?_⟩
  rw [hmain]
  exact criteria_section_no_tables _ _ (overview_section_no_tables _ _ (by decide))

/-- Witness for C1 at a concrete record. -/
theorem listing_gates_sections_witness :
    (process_student [(firstNameKey, Value.vStr "Jane"), (lastNameKey, Value.vStr "Doe")]
      ⟨some "Hello intro.", some "- SAT: 1440", none, some "unused", some "unused",
       some "unused", some "unused"⟩
      (fun _ => true) (fun _ => false) "company_logo.png").success = true ∧
    (process_student [(firstNameKey, Value.vStr "Jane"), (lastNameKey, Value.vStr "Doe")]
      ⟨some "Hello intro.", some "- SAT: 1440", none, some "unused", some "unused",
       some "unused", some "unused"⟩
      (fun _ => true) (fun _ => false) "company_logo.png").calls =
      [GenStep.overview, GenStep.criteria, GenStep.listing] := by
  have h := listing_gates_sections
    [(firstNameKey, Value.vStr "Jane"), (lastNameKey, Value.vStr "Doe")]
    ⟨some "Hello intro.", some "- SAT: 1440", none, some "unused", some "unused",
     some "unused", some "unused"⟩
    (fun _ => true) (fun _ => false) "company_logo.png"
    "Jane" "Doe" "Hello intro." "- SAT: 1440"
    (by decide) (by decide) rfl (by decide) rfl (by decide) rfl (fun k => rfl)
  exact ⟨h.1, h.2.2.1⟩

/-- C3 counterexample: with full generation results but a failing first
checkpoint save, `process_student` abandons the record — the Criteria step
(and everything after it) is never attempted and the result is failure,
contradicting "the pipeline continues attempting the subsequent sections of
that record rather than abandoning it". -/
theorem checkpoint_failure_counterexample :
    (process_student [(firstNameKey, Value.vStr "Jane"), (lastNameKey, Value.vStr "Doe")]
      ⟨some "Hello intro.", some "- SAT: 1440", some "Reach Schools\n- A",
       some "**REACH SCHOOLS**\nr", some "**A**\nd", none, none⟩
      (fun _ => false) (fun _ => true) "company_logo.png").success = false ∧
    GenStep.criteria ∉
      (process_student [(firstNameKey, Value.vStr "Jane"), (lastNameKey, Value.vStr "Doe")]
        ⟨some "Hello intro.", some "- SAT: 1440", some "Reach Schools\n- A",
         some "**REACH SCHOOLS**\nr", some "**A**\nd", none, none⟩
        (fun _ => false) (fun _ => true) "company_logo.png").calls := by decide

/-- C3 (amended): a failing checkpoint save raises into the outer record
handler: the failure is logged there and the already-rendered in-memory
sections are kept (not rolled back), but the pipeline does not continue with
that record — no further section is attempted and `process_student` returns
failure for the record (the batch then moves on to the next record). Stated
for a failure of the first attempted save, after a successful Overview
render. -/
theorem checkpoint_failure_aborts_record (profile : Profile) (gen : GenResults)
    (saveOk : Nat → Bool) (fs : String → Bool) (logoPath : String)
    (fv lv o : String)
    (hf : getField profile firstNameKey = some (Value.vStr fv))
    (hl : getField profile lastNameKey = some (Value.vStr lv))
    (ho : gen.overview = some o) (hone : o ≠ "")
    (hsave : saveOk 0 = false) :
    (process_student profile gen saveOk fs logoPath).success = false ∧
    (process_student profile gen saveOk fs logoPath).doc =
      create_overview_section [] o ∧
    (process_student profile gen saveOk fs logoPath).calls = [GenStep.overview] := by
  have hmain : process_student profile gen saveOk fs logoPath =
      ⟨false, create_overview_section [] o, [GenStep.overview]⟩ := by
    cases hlist : gen.listing with
    | none =>
      simp [process_student, hf, hl, ho, hone, hlist, isnaE, strOf,
        create_new_document, runGen, renderIf, doSave, hsave]
    | some cl =>
      by_cases hcl : cl = ""
      · simp [process_student, hf, hl, ho, hone, hlist, hcl, isnaE, strOf,
          create_new_document, runGen, renderIf, doSave, hsave]
      · simp [process_student, hf, hl, ho, hone, hlist, hcl, isnaE, strOf,
          create_new_document, runGen, renderIf, doSave, hsave]
  exact ⟨by rw [hmain], by rw [hmain], by rw [hmain]⟩

/-- Witness for C3 (amended) at a concrete record. -/
theorem checkpoint_failure_aborts_record_witness :
    (process_student [(firstNameKey, Value.vStr "Jane"), (lastNameKey, Value.vStr "Doe")]
      ⟨some "Hello intro.", some "- SAT: 1440", some "Reach Schools\n- A",
       some "**REACH SCHOOLS**\nr", some "**A**\nd", none, none⟩
      (fun _ => false) (fun _ => true) "company_logo.png").success = false ∧
    (process_student [(firstNameKey, Value.vStr "Jane"), (lastNameKey, Value.vStr "Doe")]
      ⟨some "Hello intro.", some "- SAT: 1440", some "Reach Schools\n- A",
       some "**REACH SCHOOLS**\nr", some "**A**\nd", none, none⟩
      (fun _ => false) (fun _ => true) "company_logo.png").calls = [GenStep.overview] := by
  have h := checkpoint_failure_aborts_record
    [(firstNameKey, Value.vStr "Jane"), (lastNameKey, Value.vStr "Doe")]
    ⟨some "Hello intro.", some "- SAT: 1440", some "Reach Schools\n- A",
     some "**REACH SCHOOLS**\nr", some "**A**\nd", none, none⟩
    (fun _ => false) (fun _ => true) "company_logo.png"
    "Jane" "Doe" "Hello intro."
    (by decide) (by decide) rfl (by decide) rfl
  exact ⟨h.1, h.2.2⟩

/-- Appending a school to one category changes exactly that category's list. -/
theorem addSchool_proj (acc : ReasonsLists) (c0 c : Cat) (n : String) :
    projCat (addSchool acc c0 n) c = projCat acc c ++ (if c0 = c then [n] else []) := by
  cases c0 <;> cases c <;> simp [addSchool, projCat]

/-- Unfolding `lastMarkerFrom` over a cons. -/
theorem lastMarkerFrom_cons (a : Option Cat) (l : String) (ls : List String) :
    lastMarkerFrom a (l :: ls) =
      lastMarkerFrom (match lineCat l with | some c => some c | none => a) ls := rfl

/-- The parser fold of `generate_reasons_for_selections` computes exactly
`specFrom` on the stripped lines, and its final category is the most
recently seen marker. -/
theorem reasons_fold_spec (raws : List String) :
    ∀ (cur : Option Cat) (acc : ReasonsLists) (c : Cat),
      projCat ((raws.foldl reasonsStep (cur, acc)).2) c =
        projCat acc c ++ specFrom cur c (raws.map pyStrip) ∧
      (raws.foldl reasonsStep (cur, acc)).1 = lastMarkerFrom cur (raws.map pyStrip) := by
  induction raws with
  | nil => exact fun cur acc c => ⟨by simp [specFrom], rfl⟩
  | cons r rs ih =>
    intro cur acc c
    simp only [List.foldl_cons, List.map_cons]
    by_cases h1 : containsSub "Reach Schools" (pyStrip r) = true
    · have hcat : lineCat (pyStrip r) = some Cat.reach := by simp [lineCat, h1]
      have estep : reasonsStep (cur, acc) r = (some Cat.reach, acc) := by
        simp [reasonsStep, h1]
      rw [estep]
      refine ⟨?_, ?_⟩
      · rw [(ih (some Cat.reach) acc c).1]
        simp [specFrom, hcat]
      · rw [(ih (some Cat.reach) acc c).2, lastMarkerFrom_cons, hcat]
    · by_cases h2 : containsSub "Target Schools" (pyStrip r) = true
      · have hcat : lineCat (pyStrip r) = some Cat.target := by simp [lineCat, h1, h2]
        have estep : reasonsStep (cur, acc) r = (some Cat.target, acc) := by
          simp [reasonsStep, h1, h2]
        rw [estep]
        refine ⟨?_, ?_⟩
        · rw [(ih (some Cat.target) acc c).1]
          simp [specFrom, hcat]
        · rw [(ih (some Cat.target) acc c).2, lastMarkerFrom_cons, hcat]
      · by_cases h3 : containsSub "Safety Schools" (pyStrip r) = true
        · have hcat : lineCat (pyStrip r) = some Cat.safety := by simp [lineCat, h1, h2, h3]
          have estep : reasonsStep (cur, acc) r = (some Cat.safety, acc) := by
            simp [reasonsStep, h1, h2, h3]
          rw [estep]
          refine ⟨?_, ?_⟩
          · rw [(ih (some Cat.safety) acc c).1]
            simp [specFrom, hcat]
          · rw [(ih (some Cat.safety) acc c).2, lastMarkerFrom_cons, hcat]
        · have hcat : lineCat (pyStrip r) = none := by simp [lineCat, h1, h2, h3]
          by_cases hb : pyStartsWith (pyStrip r) "- " = true
          · cases hcur : cur with
            | none =>
              have estep : reasonsStep (none, acc) r = (none, acc) := by
                simp [reasonsStep, h1, h2, h3, hb]
              rw [estep]
              refine ⟨?_, ?_⟩
              · rw [(ih none acc c).1]
                simp [specFrom, hcat, hb]
              · rw [(ih none acc c).2, lastMarkerFrom_cons, hcat]
            | some c0 =>
              have estep : reasonsStep (some c0, acc) r =
                  (some c0, addSchool acc c0 (pyStrip (pyDrop (pyStrip r) 2))) := by
                simp [reasonsStep, h1, h2, h3, hb]
              rw [estep]
              refine ⟨?_, ?_⟩
              · rw [(ih (some c0) _ c).1, addSchool_proj]
                simp only [specFrom, hcat, hb, if_true]
                by_cases hcc : c0 = c
                · simp [hcc, List.append_assoc]
                · have hcc2 : ¬ (some c0 = some c) := by simp [hcc]
                  simp [hcc, hcc2]
              · rw [(ih (some c0) _ c).2, lastMarkerFrom_cons, hcat]
          · have hb2 : pyStartsWith (pyStrip r) "- " = false := by
              revert hb
              cases pyStartsWith (pyStrip r) "- " <;> simp
            have estep : reasonsStep (cur, acc) r = (cur, acc) := by
              cases hcur : cur <;> simp [reasonsStep, h1, h2, h3, hb2]
            rw [estep]
            refine ⟨?_, ?_⟩
            · rw [(ih cur acc c).1]
              simp [specFrom, hcat, hb2]
            · rw [(ih cur acc c).2, lastMarkerFrom_cons, hcat]

/-- `lastMarkerFrom` over the empty list. -/
theorem lastMarkerFrom_nil (a : Option Cat) : lastMarkerFrom a [] = a := rfl

/-- Unfolding `specSchools` over a cons: the head line contributes iff it is
a bullet and the incoming category is `c`; the tail is interpreted with the
category updated by the head line. -/
theorem specSchools_cons (cur : Option Cat) (c : Cat) (l : String) (ls : List String) :
    specSchools cur c (l :: ls) =
      (if isBulletLine l = true ∧ cur = some c then [pyStrip (pyDrop l 2)] else []) ++
      specSchools (match lineCat l with | some c2 => some c2 | none => cur) c ls := by
  rw [specSchools, List.enum_cons', List.filterMap_cons, List.filterMap_map]
  have hfun : ((fun p : Nat × String =>
        if isBulletLine p.2 = true ∧ lastMarkerFrom cur ((l :: ls).take p.1) = some c
        then some (pyStrip (pyDrop p.2 2)) else none) ∘ Prod.map (· + 1) id) =
      (fun p : Nat × String =>
        if isBulletLine p.2 = true ∧
            lastMarkerFrom (match lineCat l with | some c2 => some c2 | none => cur)
              (ls.take p.1) = some c
        then some (pyStrip (pyDrop p.2 2)) else none) := by
    funext p
    obtain ⟨i, x⟩ := p
    simp [Prod.map, List.take_succ_cons, lastMarkerFrom_cons]
  rw [hfun]
  rw [show List.filterMap
      (fun p : Nat × String =>
        if isBulletLine p.2 = true ∧
            lastMarkerFrom (match lineCat l with | some c2 => some c2 | none => cur)
              (ls.take p.1) = some c
        then some (pyStrip (pyDrop p.2 2)) else none) ls.enum =
      specSchools (match lineCat l with | some c2 => some c2 | none => cur) c ls from rfl]
  dsimp only
  rw [List.take_zero, lastMarkerFrom_nil]
  by_cases hcond : isBulletLine l = true ∧ cur = some c
  · simp [hcond]
  · simp [hcond]

/-- The operational `specFrom` agrees with the declarative `specSchools`:
a bullet is collected for `c` exactly when the most recently seen marker of
its prefix is `c`. -/
theorem specFrom_eq_specSchools (lines : List String) :
    ∀ (cur : Option Cat) (c : Cat), specFrom cur c lines = specSchools cur c lines := by
  induction lines with
  | nil => intro cur c; rfl
  | cons l ls ih =>
    intro cur c
    rw [specSchools_cons]
    cases hcat : lineCat l with
    | some c2 =>
      have hnb : isBulletLine l = false := by simp [isBulletLine, hcat]
      simp [specFrom, hcat, hnb, ih]
    | none =>
      by_cases hb : pyStartsWith l "- " = true
      · have hbl : isBulletLine l = true := by simp [isBulletLine, hcat, hb]
        by_cases hcc : cur = some c <;> simp [specFrom, hcat, hb, hbl, hcc, ih]
      · have hb2 : pyStartsWith l "- " = false := by
          revert hb
          cases pyStartsWith l "- " <;> simp
        have hnb : isBulletLine l = false := by simp [isBulletLine, hb2]
        simp [specFrom, hcat, hb2, hnb, ih]

/-- C2: for every listing text, the parse in
`generate_reasons_for_selections` assigns every bulleted institution to
exactly the category of the most recently seen marker before it, preserving
within-category order (each category's list is the in-order sequence of its
bullets), and a bullet line before the first category marker belongs to no
category — it is dropped silently. -/
theorem parse_listing_most_recent (text : String) (lines : List String)
    (hsplit : (pyLines text).map pyStrip = lines) :
    (parseReasonsLists text).reach = specSchools none Cat.reach lines ∧
    (parseReasonsLists text).target = specSchools none Cat.target lines ∧
    (parseReasonsLists text).safety = specSchools none Cat.safety lines := by
  unfold parseReasonsLists
  refine ⟨?_, ?_, ?_⟩
  · have hh := (reasons_fold_spec (pyLines text) none ⟨[], [], []⟩ Cat.reach).1
    rw [specFrom_eq_specSchools, hsplit] at hh
    simpa [projCat] using hh
  · have hh := (reasons_fold_spec (pyLines text) none ⟨[], [], []⟩ Cat.target).1
    rw [specFrom_eq_specSchools, hsplit] at hh
    simpa [projCat] using hh
  · have hh := (reasons_fold_spec (pyLines text) none ⟨[], [], []⟩ Cat.safety).1
    rw [specFrom_eq_specSchools, hsplit] at hh
    simpa [projCat] using hh

/-- Witness for C2 on a concrete listing with a pre-marker bullet. -/
theorem parse_listing_most_recent_witness :
    (parseReasonsLists "- dropped\nReach Schools\n- Stanford\nTarget Schools\n- UCLA\n- Irvine").target =
      specSchools none Cat.target
        ["- dropped", "Reach Schools", "- Stanford", "Target Schools", "- UCLA", "- Irvine"] ∧
    specSchools none Cat.target
        ["- dropped", "Reach Schools", "- Stanford", "Target Schools", "- UCLA", "- Irvine"] =
      ["UCLA", "Irvine"] := by
  have h := parse_listing_most_recent
    "- dropped\nReach Schools\n- Stanford\nTarget Schools\n- UCLA\n- Irvine"
    ["- dropped", "Reach Schools", "- Stanford", "Target Schools", "- UCLA", "- Irvine"]
    (by decide)
  exact ⟨h.2.1, by decide⟩

/-- Folding detail (non-header) lines only accumulates them into the pending
details string. -/
theorem det_accum (ds : List String) :
    ∀ st : DetAcc, (∀ d ∈ ds, isHeaderLine d = false) →
      ds.foldl detStep st = ⟨st.cur, st.details ++ joinLN ds, st.colleges⟩ := by
  induction ds with
  | nil =>
    intro st _
    cases st
    simp [joinLN]
  | cons d ds2 ih =>
    intro st h
    have hd := h d (List.mem_cons_self _ _)
    simp only [List.foldl_cons]
    rw [show detStep st d = ⟨st.cur, st.details ++ d ++ "\n", st.colleges⟩ from by
      simp [detStep, hd]]
    rw [ih _ (fun x hx => h x (List.mem_cons_of_mem _ hx))]
    simp [joinLN, String.append_assoc]

/-- A non-empty block of detail lines accumulates to a non-empty string. -/
theorem joinLN_ne_empty (d : String) (ds : List String) : joinLN (d :: ds) ≠ "" := by
  intro h
  have h2 : (d ++ "\n" ++ joinLN ds).data = ("" : String).data := congrArg String.data h
  simp at h2

/-- Truthiness of a non-empty current name. -/
theorem curTruthy_some (n : String) (h : n ≠ "") : curTruthy (some n) = true := by
  simp [curTruthy, bne_iff_ne, h]

/-- `detStep` on a well-formed header line: flush the pending college when
both name and details are truthy, then switch to the cleaned-up name. -/
theorem detStep_header (st : DetAcc) (n : String) (hn : nameOk n) :
    detStep st ("**" ++ n ++ "**") =
      if curTruthy st.cur && st.details != "" then
        ⟨some n, "", st.colleges ++ [(st.cur.getD "", st.details)]⟩
      else ⟨some n, st.details, st.colleges⟩ := by
  obtain ⟨hne, hhead, hclean⟩ := hn
  simp only [detStep, hhead, if_true, hclean]

/-- Running the details parse over the lines of a block list from a pending
college (nonempty name `n0`, accumulated details `det0`): the pending
college survives iff its details are non-empty, and each block survives iff
it has at least one detail line. -/
theorem det_run (blocks : List (String × List String)) :
    ∀ (n0 det0 : String) (acc : List (String × String)),
      n0 ≠ "" →
      (∀ b ∈ blocks, nameOk b.1) →
      (∀ b ∈ blocks, ∀ d ∈ b.2, isHeaderLine d = false) →
      finalizeDet (((blocks.map blockLines).flatten).foldl detStep ⟨some n0, det0, acc⟩) =
        (if det0 = "" then acc else acc ++ [(n0, det0)]) ++
        (blocks.filter (fun b => !b.2.isEmpty)).map (fun b => (b.1, joinLN b.2)) := by
  induction blocks with
  | nil =>
    intro n0 det0 acc hn0 _ _
    simp only [List.map_nil, List.flatten_nil, List.foldl_nil]
    unfold finalizeDet
    simp only [curTruthy_some _ hn0, Bool.true_and]
    by_cases hd : det0 = ""
    · simp [hd]
    · simp [hd, bne_iff_ne]
  | cons b bs ih =>
    intro n0 det0 acc hn0 hname hdet
    obtain ⟨nb, ds⟩ := b
    have hnb : nameOk (nb, ds).1 := hname (nb, ds) (List.mem_cons_self _ _)
    have hds : ∀ d ∈ ds, isHeaderLine d = false :=
      fun d hd => hdet (nb, ds) (List.mem_cons_self _ _) d hd
    have hnamebs : ∀ b2 ∈ bs, nameOk b2.1 :=
      fun b2 hb2 => hname b2 (List.mem_cons_of_mem _ hb2)
    have hdetbs : ∀ b2 ∈ bs, ∀ d ∈ b2.2, isHeaderLine d = false :=
      fun b2 hb2 => hdet b2 (List.mem_cons_of_mem _ hb2)
    simp only [List.map_cons, blockLines, List.flatten_cons, List.cons_append,
      List.foldl_cons, List.foldl_append]
    rw [detStep_header _ _ hnb]
    by_cases hd0 : det0 = ""
    · subst hd0
      have hcond : (curTruthy (⟨some n0, "", acc⟩ : DetAcc).cur &&
          ((⟨some n0, "", acc⟩ : DetAcc).details != "")) = false := by simp
      rw [hcond, if_neg Bool.false_ne_true]
      rw [det_accum ds _ hds]
      dsimp only
      rw [show ("" : String) ++ joinLN ds = joinLN ds by simp]
      rw [ih nb (joinLN ds) acc hnb.1 hnamebs hdetbs]
      cases ds with
      | nil => simp [joinLN]
      | cons d ds2 => simp [joinLN_ne_empty d ds2, List.append_assoc]
    · have hcond : (curTruthy (⟨some n0, det0, acc⟩ : DetAcc).cur &&
          ((⟨some n0, det0, acc⟩ : DetAcc).details != "")) = true := by
        simp only [curTruthy_some _ hn0, Bool.true_and]
        simp [bne_iff_ne, hd0]
      rw [hcond, if_pos rfl]
      rw [det_accum ds _ hds]
      dsimp only [Option.getD_some]
      rw [show ("" : String) ++ joinLN ds = joinLN ds by simp]
      rw [ih nb (joinLN ds) (acc ++ [(n0, det0)]) hnb.1 hnamebs hdetbs]
      cases ds with
      | nil => simp [hd0, joinLN, List.append_assoc]
      | cons d ds2 => simp [hd0, joinLN_ne_empty d ds2, List.append_assoc]

/-- C6: for every details text that splits into N bold-marker-named blocks,
the institution-details parse returns, in source order, exactly the blocks
with at least one detail line — so N entries when every name is followed by
at least one detail line, and N-1 entries when the trailing name has zero
detail lines before the input ends (it is dropped). -/
theorem parse_details_blocks (text : String) (blocks : List (String × List String))
    (hsplit : pyLines text = (blocks.map blockLines).flatten)
    (hname : ∀ b ∈ blocks, nameOk b.1)
    (hdet : ∀ b ∈ blocks, ∀ d ∈ b.2, isHeaderLine d = false) :
    parseColleges text =
      (blocks.filter (fun b => !b.2.isEmpty)).map (fun b => (b.1, joinLN b.2)) := by
  unfold parseColleges
  rw [hsplit]
  cases blocks with
  | nil => simp [finalizeDet, curTruthy]
  | cons b bs =>
    obtain ⟨nb, ds⟩ := b
    have hnb : nameOk (nb, ds).1 := hname (nb, ds) (List.mem_cons_self _ _)
    have hds : ∀ d ∈ ds, isHeaderLine d = false :=
      fun d hd => hdet (nb, ds) (List.mem_cons_self _ _) d hd
    have hnamebs : ∀ b2 ∈ bs, nameOk b2.1 :=
      fun b2 hb2 => hname b2 (List.mem_cons_of_mem _ hb2)
    have hdetbs : ∀ b2 ∈ bs, ∀ d ∈ b2.2, isHeaderLine d = false :=
      fun b2 hb2 => hdet b2 (List.mem_cons_of_mem _ hb2)
    simp only [List.map_cons, blockLines, List.flatten_cons, List.cons_append,
      List.foldl_cons, List.foldl_append]
    rw [detStep_header _ _ hnb]
    have hcond : (curTruthy (⟨none, "", []⟩ : DetAcc).cur &&
        ((⟨none, "", []⟩ : DetAcc).details != "")) = false := rfl
    rw [hcond, if_neg Bool.false_ne_true]
    rw [det_accum ds _ hds]
    dsimp only
    rw [show ("" : String) ++ joinLN ds = joinLN ds by simp]
    rw [det_run bs nb (joinLN ds) [] hnb.1 hnamebs hdetbs]
    cases ds with
    | nil => simp [joinLN]
    | cons d ds2 => simp [joinLN_ne_empty d ds2]

/-- Witness for C6: two blocks, the trailing one with zero detail lines, so
only the first survives. -/
theorem parse_details_blocks_witness :
    parseColleges "**Stanford University**\nLocation: CA\n**MIT**" =
      [("Stanford University", "Location: CA\n")] := by
  have h := parse_details_blocks "**Stanford University**\nLocation: CA\n**MIT**"
    [("Stanford University", ["Location: CA"]), ("MIT", [])]
    (by decide) (by decide) (by decide)
  rw [h]
  decide

/-- The character list of a join. -/
theorem pyJoin_data (sep : String) (ss : List String) :
    (pyJoin sep ss).data = List.intercalate sep.data (ss.map String.data) := rfl

/-- Splitting on newlines is a left inverse of newline-joining, for a
non-empty list of newline-free strings. -/
theorem pyLines_pyJoin (ss : List String) (hne : ss ≠ [])
    (h : ∀ s ∈ ss, '\n' ∉ s.data) : pyLines (pyJoin "\n" ss) = ss := by
  unfold pyLines
  rw [pyJoin_data]
  rw [show ("\n" : String).data = ['\n'] from rfl]
  have hx : ∀ l ∈ ss.map String.data, '\n' ∉ l := by
    intro l hl
    obtain ⟨s, hs, rfl⟩ := List.mem_map.mp hl
    exact h s hs
  have hls : ss.map String.data ≠ [] := by simpa using hne
  rw [List.splitOn_intercalate (ss.map String.data) '\n' hx hls, List.map_map]
  rw [show (String.mk ∘ String.data) = id from funext fun s => rfl, List.map_id]

/-- Flushing related table and mapping states produces related rows. -/
theorem flush_par (stT : TableAcc) (stM : MapAcc)
    (h1 : stT.cur = stM.cur) (h2 : stT.schools = stM.schools)
    (h3 : stT.rows = stM.rendered.map (fun p => (p.1, pyJoin "\n" p.2))) :
    tableFlush stT = (mapFlush stM).map (fun p => (p.1, pyJoin "\n" p.2)) := by
  unfold tableFlush mapFlush
  rw [h1, h2, h3]
  by_cases hcond : (curTruthy stM.cur && !stM.schools.isEmpty) = true
  · simp [hcond]
  · have hc2 : (curTruthy stM.cur && !stM.schools.isEmpty) = false := by
      revert hcond
      cases (curTruthy stM.cur && !stM.schools.isEmpty) <;> simp
    simp [hc2]

/-- One parsing step preserves the relation between the table fold (rows as
newline-joined cells) and the mapping fold (rows as school-line lists). -/
theorem step_par (stT : TableAcc) (stM : MapAcc) (r : String)
    (h1 : stT.cur = stM.cur) (h2 : stT.schools = stM.schools)
    (h3 : stT.rows = stM.rendered.map (fun p => (p.1, pyJoin "\n" p.2))) :
    (tableStep stT r).cur = (mapStep stM r).cur ∧
    (tableStep stT r).schools = (mapStep stM r).schools ∧
    (tableStep stT r).rows =
      ((mapStep stM r).rendered).map (fun p => (p.1, pyJoin "\n" p.2)) := by
  have hfl := flush_par stT stM h1 h2 h3
  unfold tableStep mapStep
  by_cases he : pyStrip r = ""
  · simp [he, h1, h2, h3]
  · by_cases hm1 : containsSub "Reach Schools" (pyStrip r) = true
    · simp [he, hm1, hfl]
    · by_cases hm2 : containsSub "Target Schools" (pyStrip r) = true
      · simp [he, hm1, hm2, hfl]
      · by_cases hm3 : containsSub "Safety Schools" (pyStrip r) = true
        · simp [he, hm1, hm2, hm3, hfl]
        · by_cases hb : (pyStartsWith (pyStrip r) "- " && curTruthy stT.cur) = true
          · have hb2 : (pyStartsWith (pyStrip r) "- " && curTruthy stM.cur) = true := by
              rw [← h1]; exact hb
            simp [he, hm1, hm2, hm3, hb, hb2, h1, h2, h3]
          · have hb2 : ¬ (pyStartsWith (pyStrip r) "- " && curTruthy stM.cur) = true := by
              rw [← h1]; exact hb
            simp [he, hm1, hm2, hm3, hb, hb2, h1, h2, h3]

/-- The table fold and the mapping fold stay related over any line list. -/
theorem table_map_par (raws : List String) :
    ∀ (stT : TableAcc) (stM : MapAcc),
      stT.cur = stM.cur → stT.schools = stM.schools →
      stT.rows = stM.rendered.map (fun p => (p.1, pyJoin "\n" p.2)) →
      ((raws.foldl tableStep stT).cur = (raws.foldl mapStep stM).cur ∧
       (raws.foldl tableStep stT).schools = (raws.foldl mapStep stM).schools ∧
       (raws.foldl tableStep stT).rows =
         ((raws.foldl mapStep stM).rendered).map (fun p => (p.1, pyJoin "\n" p.2))) := by
  induction raws with
  | nil => exact fun stT stM h1 h2 h3 => ⟨h1, h2, h3⟩
  | cons r rs ih =>
    intro stT stM h1 h2 h3
    simp only [List.foldl_cons]
    have hstep := step_par stT stM r h1 h2 h3
    exact ih _ _ hstep.1 hstep.2.1 hstep.2.2

/-- A flush only emits rows with a non-empty, newline-free school list. -/
theorem mapFlush_inv (stM : MapAcc)
    (h2 : ∀ s ∈ stM.schools, '\n' ∉ s.data)
    (h3 : ∀ p ∈ stM.rendered, p.2 ≠ [] ∧ ∀ s ∈ p.2, '\n' ∉ s.data) :
    ∀ p ∈ mapFlush stM, p.2 ≠ [] ∧ ∀ s ∈ p.2, '\n' ∉ s.data := by
  unfold mapFlush
  by_cases hc : (curTruthy stM.cur && !stM.schools.isEmpty) = true
  · rw [if_pos hc]
    intro p hp
    rcases List.mem_append.mp hp with hp2 | hp2
    · exact h3 p hp2
    · have hp3 : p = (stM.cur.getD "", stM.schools) := by simpa using hp2
      subst hp3
      dsimp only
      refine ⟨?_, h2⟩
      intro hnil
      rw [hnil] at hc
      simp at hc
  · rw [if_neg hc]
    exact h3

/-- One mapping step preserves the school-list invariants. -/
theorem mapStep_inv (stM : MapAcc) (r : String)
    (hr : '\n' ∉ (pyStrip r).data)
    (h2 : ∀ s ∈ stM.schools, '\n' ∉ s.data)
    (h3 : ∀ p ∈ stM.rendered, p.2 ≠ [] ∧ ∀ s ∈ p.2, '\n' ∉ s.data) :
    (∀ s ∈ (mapStep stM r).schools, '\n' ∉ s.data) ∧
    (∀ p ∈ (mapStep stM r).rendered, p.2 ≠ [] ∧ ∀ s ∈ p.2, '\n' ∉ s.data) := by
  have hfl := mapFlush_inv stM h2 h3
  by_cases he : pyStrip r = ""
  · have hres : mapStep stM r = stM := by simp [mapStep, he]
    rw [hres]
    exact ⟨h2, h3⟩
  · by_cases hm1 : containsSub "Reach Schools" (pyStrip r) = true
    · have hres : mapStep stM r = ⟨some "Reach Schools", [], mapFlush stM⟩ := by
        simp [mapStep, he, hm1]
      rw [hres]
      exact ⟨by simp, hfl⟩
    · by_cases hm2 : containsSub "Target Schools" (pyStrip r) = true
      · have hres : mapStep stM r = ⟨some "Target Schools", [], mapFlush stM⟩ := by
          simp [mapStep, he, hm1, hm2]
        rw [hres]
        exact ⟨by simp, hfl⟩
      · by_cases hm3 : containsSub "Safety Schools" (pyStrip r) = true
        · have hres : mapStep stM r = ⟨some "Safety Schools", [], mapFlush stM⟩ := by
            simp [mapStep, he, hm1, hm2, hm3]
          rw [hres]
          exact ⟨by simp, hfl⟩
        · by_cases hb : (pyStartsWith (pyStrip r) "- " && curTruthy stM.cur) = true
          · have hres : mapStep stM r =
                ⟨stM.cur, stM.schools ++ [pyStrip r], stM.rendered⟩ := by
              simp [mapStep, he, hm1, hm2, hm3, hb]
            rw [hres]
            refine ⟨?_, h3⟩
            intro s hs
            rcases List.mem_append.mp hs with hs2 | hs2
            · exact h2 s hs2
            · have hsr : s = pyStrip r := by simpa using hs2
              rw [hsr]
              exact hr
          · have hres : mapStep stM r = stM := by
              simp [mapStep, he, hm1, hm2, hm3, hb]
            rw [hres]
            exact ⟨h2, h3⟩

/-- The mapping fold maintains the school-list invariants. -/
theorem map_fold_inv (raws : List String) :
    ∀ stM : MapAcc,
      (∀ r ∈ raws, '\n' ∉ (pyStrip r).data) →
      (∀ s ∈ stM.schools, '\n' ∉ s.data) →
      (∀ p ∈ stM.rendered, p.2 ≠ [] ∧ ∀ s ∈ p.2, '\n' ∉ s.data) →
      ((∀ s ∈ (raws.foldl mapStep stM).schools, '\n' ∉ s.data) ∧
       (∀ p ∈ (raws.foldl mapStep stM).rendered,
         p.2 ≠ [] ∧ ∀ s ∈ p.2, '\n' ∉ s.data)) := by
  induction raws with
  | nil => exact fun stM _ h2 h3 => ⟨h2, h3⟩
  | cons r rs ih =>
    intro stM h h2 h3
    simp only [List.foldl_cons]
    have hstep := mapStep_inv stM r (h r (List.mem_cons_self _ _)) h2 h3
    exact ih _ (fun r2 hr2 => h r2 (List.mem_cons_of_mem _ hr2)) hstep.1 hstep.2

/-- Mapping a function that fixes every member is the identity. -/
theorem map_id_of_mem {α : Type} (l : List α) (f : α → α) (h : ∀ a ∈ l, f a = a) :
    l.map f = l := by
  induction l with
  | nil => rfl
  | cons a as ih =>
    simp only [List.map_cons, h a (List.mem_cons_self _ _)]
    rw [ih (fun x hx => h x (List.mem_cons_of_mem _ hx))]

/-- C8: the listing table produced by `create_college_list_table` is the
header row, one row per entry of the rendered category-to-institutions
mapping with the schools cell newline-joined, and the optional
picked-colleges row; and scanning those body rows (reading the category cell
and splitting the schools cell on newlines) reconstructs exactly the
mapping that was rendered. -/
theorem listing_table_roundtrip (content : String) (si : Option Profile)
    (hnl : ∀ r ∈ pyLines content, '\n' ∉ (pyStrip r).data) :
    create_college_list_table_rows content si =
      ("School Level", "List of College") ::
        ((listingMapping content).map (fun p => (p.1, pyJoin "\n" p.2)) ++
          pickedRows (picksOf si)) ∧
    scanTable ((listingMapping content).map (fun p => (p.1, pyJoin "\n" p.2))) =
      listingMapping content := by
  have hpar := table_map_par (pyLines content) ⟨none, [], []⟩ ⟨none, [], []⟩ rfl rfl (by simp)
  have hinv := map_fold_inv (pyLines content) ⟨none, [], []⟩ hnl (by simp) (by simp)
  have hgood := mapFlush_inv ((pyLines content).foldl mapStep ⟨none, [], []⟩) hinv.1 hinv.2
  constructor
  · unfold create_college_list_table_rows listingMapping
    dsimp only
    rw [flush_par _ _ hpar.1 hpar.2.1 hpar.2.2]
    rw [List.cons_append]
  · unfold scanTable
    rw [List.map_map]
    apply map_id_of_mem
    intro p hp
    have hg := hgood p hp
    have := pyLines_pyJoin p.2 hg.1 hg.2
    simp only [Function.comp]
    rw [this]

/-- Witness for C8 at a concrete listing. -/
theorem listing_table_roundtrip_witness :
    create_college_list_table_rows "Reach Schools\n- A\n- B\nTarget Schools\n- C" none =
      ("School Level", "List of College") ::
        ((listingMapping "Reach Schools\n- A\n- B\nTarget Schools\n- C").map
          (fun p => (p.1, pyJoin "\n" p.2)) ++ pickedRows (picksOf none)) ∧
    scanTable ((listingMapping "Reach Schools\n- A\n- B\nTarget Schools\n- C").map
        (fun p => (p.1, pyJoin "\n" p.2))) =
      listingMapping "Reach Schools\n- A\n- B\nTarget Schools\n- C" :=
  listing_table_roundtrip "Reach Schools\n- A\n- B\nTarget Schools\n- C" none (by decide)

end CollegeGen
